import Mathlib

/-!
Verification development for the mxgraph example repository: a shallow
embedding of the bouncing-balls demo helpers (Array.prototype.filterInPlace,
the animation tick) and of the mxCellEditor in-place label editor
(startEditing, stopEditing, resize, destroy, getMinimumSize,
getEditorBounds), with theorems checking the design specification's
claims against the embedded code.

Numbers are modelled as rationals; DOM references (textarea, textDiv,
the hidden label node) are tracked as presence/absence plus the fields
the code reads back (textarea value, textAlign, attachment). Operations
that can hit a null dereference in the JavaScript return an Option:
none models a thrown TypeError. Each operation also returns the list of
graph.labelChanged commits it performed, in order.
-/

namespace MxSpec

/-! ## Bouncing-balls demo (bouncingballs.js) -/

/-- Geometry of a ball cell: mxGeometry fields read by the tick. -/
structure Geom where
  x : ℚ
  y : ℚ
  width : ℚ
  height : ℚ
deriving DecidableEq, Repr

/-- A ball: its geometry plus the velocity fields vx, vy stored on the cell. -/
structure Ball where
  geom : Geom
  vx : ℚ
  vy : ℚ
deriving DecidableEq, Repr

/-- Canvas width from bb_main (canvas_size.w = 640). -/
def canvasSizeW : ℚ := 640

/-- Canvas height from bb_main (canvas_size.h = 480). -/
def canvasSizeH : ℚ := 480

/-- One iteration of the setInterval callback body for a single ball:
wall bounces update vx/vy (right/bottom walls set the velocity to minus its
absolute value, left/top walls to its absolute value, in source order),
then the position is advanced by the updated velocities. -/
def stepBall (b : Ball) : Ball :=
  let vx1 := if b.geom.x + b.geom.width ≥ canvasSizeW then -|b.vx| else b.vx
  let vx2 := if b.geom.x ≤ 0 then |vx1| else vx1
  let vy1 := if b.geom.y + b.geom.height ≥ canvasSizeH then -|b.vy| else b.vy
  let vy2 := if b.geom.y ≤ 0 then |vy1| else vy1
  { geom := { b.geom with x := b.geom.x + vx2, y := b.geom.y + vy2 },
    vx := vx2, vy := vy2 }

/-- The whole tick: movingBalls.forEach applies the per-ball body to every
ball independently (each mutation touches only that ball's own fields). -/
def tickBalls (balls : List Ball) : List Ball :=
  balls.map stepBall

/-! ## Array.prototype.filterInPlace (bouncingballs.js lines 1-14) -/

/-- Loop of filterInPlace: index i scans the array, removed counts dropped
elements so far; kept elements are shifted down by removed via an index
write, exactly as in the source. -/
def filterInPlaceGo {α : Type} (cond : α → Bool) (l : List α) (i removed : Nat) :
    List α × Nat :=
  if h : i < l.length then
    let x := l[i]
    if !cond x then
      filterInPlaceGo cond l (i + 1) (removed + 1)
    else if removed > 0 then
      filterInPlaceGo cond (l.set (i - removed) x) (i + 1) removed
    else
      filterInPlaceGo cond l (i + 1) removed
  else
    (l, removed)
termination_by l.length - i
decreasing_by
  · omega
  · simp only [List.length_set]; omega
  · omega

/-- Array.prototype.filterInPlace: run the loop from (0, 0), then truncate
the array by the number of removed elements (this.length -= removed). -/
def filterInPlace {α : Type} (cond : α → Bool) (l : List α) : List α :=
  let p := filterInPlaceGo cond l 0 0
  p.1.take (p.1.length - p.2)

/-! ## mxCellEditor data model -/

/-- Kind of a diagram cell in the model: vertex or edge. -/
inductive CellKind where
  | vertex
  | edge
deriving DecidableEq, Repr

/-- A diagram cell (mxCell), identified by an id, with its model kind. -/
structure Cell where
  id : Nat
  kind : CellKind
deriving DecidableEq, Repr

/-- Whether the model reports the cell as an edge (graph.getModel().isEdge). -/
def mxIsEdge (c : Cell) : Bool :=
  c.kind = CellKind.edge

/-- Whether the model reports the cell as a vertex (graph.getModel().isVertex). -/
def mxIsVertex (c : Cell) : Bool :=
  c.kind = CellKind.vertex

/-- An mxRectangle. -/
structure Rect where
  x : ℚ
  y : ℚ
  width : ℚ
  height : ℚ
deriving DecidableEq, Repr

/-- An mxPoint. -/
structure Point where
  x : ℚ
  y : ℚ
deriving DecidableEq, Repr

/-- The style entries of a render state that mxCellEditor reads; a missing
entry is none and stands for the style map not containing the key. -/
structure Style where
  align : Option String := none
  spacing : Option ℚ := none
  spacingTop : Option ℚ := none
  spacingRight : Option ℚ := none
  spacingBottom : Option ℚ := none
  spacingLeft : Option ℚ := none
  labelPosition : Option String := none
  verticalLabelPosition : Option String := none
deriving DecidableEq, Repr

/-- mxUtils.getValue(style, key, default): the stored value when present,
the default when the key is absent. -/
def getValue {α : Type} (v : Option α) (d : α) : α :=
  v.getD d

/-- The text shape attached to a render state (state.text): its point size
and optional bounding box. The DOM node of the shape is tracked on the
editor side as the hidden-label flag. -/
structure TextInfo where
  size : ℚ
  boundingBox : Option Rect := none
deriving DecidableEq, Repr

/-- A render state (mxCellState) as read by the editor: the cell, its
on-screen position and size, the absolute label offset (for edges), the
style map and the optional text shape. -/
structure CellState where
  cell : Cell
  x : ℚ
  y : ℚ
  width : ℚ
  height : ℚ
  absoluteOffset : Point
  style : Style
  text : Option TextInfo
deriving DecidableEq, Repr

/-- The textarea overlay: its current value, whether it is attached to the
container (has a parentNode), and its textAlign style. -/
structure Textarea where
  value : String
  attached : Bool
  textAlign : String
deriving DecidableEq, Repr

/-- A graph.labelChanged invocation: the edited cell, the committed text and
the original trigger event. -/
structure Commit where
  cell : Cell
  value : String
  trigger : Option Nat
deriving DecidableEq, Repr

/-- The mutable state of an mxCellEditor instance. textarea/bounds are none
while null; textNode records that a label DOM node is currently hidden;
textDiv and changeHandler record that the measuring div exists and that the
model change listener is registered. -/
structure Editor where
  textarea : Option Textarea
  editingCell : Option Cell
  trigger : Option Nat
  modified : Bool
  autoSize : Bool
  selectText : Bool
  emptyLabelText : String
  textNode : Bool
  clearOnChange : Bool
  bounds : Option Rect
  textDiv : Bool
  changeHandler : Bool
deriving DecidableEq, Repr

/-- The prototype defaults of mxCellEditor before any call. -/
def freshEditor : Editor :=
  { textarea := none, editingCell := none, trigger := none, modified := false,
    autoSize := true, selectText := true, emptyLabelText := "", textNode := false,
    clearOnChange := false, bounds := none, textDiv := false, changeHandler := false }

/-- The external collaborators: the view's render-state lookup (getState on a
null cell yields null), the graph's initial editing value, and the view scale. -/
structure Env where
  getState : Cell → Option CellState
  getEditingValue : Cell → Option Nat → String
  scale : ℚ

/-! ## mxCellEditor operations -/

/-- mxCellEditor.prototype.init: creates the textarea (value "", detached,
default textAlign) and registers the model change listener. -/
def Editor.init (e : Editor) : Editor :=
  { e with textarea := some { value := "", attached := false, textAlign := "" },
           changeHandler := true }

/-- mxCellEditor.prototype.isHideLabel: always true. -/
def Editor.isHideLabel (e : Editor) (state : CellState) : Bool :=
  true

/-- mxCellEditor.prototype.getCurrentValue: the textarea value with every
carriage-return character removed (value.replace CR-global with ""). -/
def getCurrentValue (ta : Textarea) : String :=
  ⟨ta.value.toList.filter (fun ch => ch ≠ '\r')⟩

/-- mxCellEditor.prototype.getMinimumSize: width is 30 when the state has no
text shape and text point size times scale plus 20 otherwise; height is 120
when the textarea textAlign is left and 40 otherwise. -/
def getMinimumSize (scale : ℚ) (textAlign : String) (state : CellState) : Rect :=
  ⟨0, 0,
   match state.text with
   | none => 30
   | some t => t.size * scale + 20,
   if textAlign = "left" then 120 else 40⟩

/-- mxCellEditor.prototype.getEditorBounds, translated step by step from the
source: spacing-reduced base rectangle floored at the minimum size, edge and
bounding-box position overrides, spacing shift, bounding-box size maxima, and
the vertex label-position offsets. -/
def getEditorBounds (scale : ℚ) (textAlign : String) (state : CellState) : Rect :=
  let isEdge := mxIsEdge state.cell
  let minSize := getMinimumSize scale textAlign state
  let minWidth := minSize.width
  let minHeight := minSize.height
  let spacing := (getValue state.style.spacing 2) * scale
  let spacingTop := (getValue state.style.spacingTop 0) * scale + spacing
  let spacingRight := (getValue state.style.spacingRight 0) * scale + spacing
  let spacingBottom := (getValue state.style.spacingBottom 0) * scale + spacing
  let spacingLeft := (getValue state.style.spacingLeft 0) * scale + spacing
  let result : Rect :=
    ⟨state.x, state.y,
     max minWidth (state.width - spacingLeft - spacingRight),
     max minHeight (state.height - spacingTop - spacingBottom)⟩
  let result :=
    if isEdge then
      let result := { result with x := state.absoluteOffset.x, y := state.absoluteOffset.y }
      match state.text with
      | some t =>
        match t.boundingBox with
        | some bb =>
          let result := if bb.x > 0 then { result with x := bb.x } else result
          if bb.y > 0 then { result with y := bb.y } else result
        | none => result
      | none => result
    else
      match state.text with
      | some t =>
        match t.boundingBox with
        | some bb => { result with x := min result.x bb.x, y := min result.y bb.y }
        | none => result
      | none => result
  let result := { result with x := result.x + spacingLeft, y := result.y + spacingTop }
  let result :=
    match state.text with
    | some t =>
      match t.boundingBox with
      | some bb =>
        if !isEdge then
          { result with width := max result.width bb.width,
                        height := max result.height bb.height }
        else
          { result with width := max minWidth bb.width,
                        height := max minHeight bb.height }
      | none => result
    | none => result
  if mxIsVertex state.cell then
    let horizontal := getValue state.style.labelPosition "center"
    let result :=
      if horizontal = "left" then { result with x := result.x - state.width }
      else if horizontal = "right" then { result with x := result.x + state.width }
      else result
    let vertical := getValue state.style.verticalLabelPosition "middle"
    if vertical = "top" then { result with y := result.y - state.height }
    else if vertical = "bottom" then { result with y := result.y + state.height }
    else result
  else result

/-- mxCellEditor.prototype.stopEditing: a no-op when no cell is being edited.
Otherwise restores the hidden label, commits via graph.labelChanged when
cancel is false and the session is modified, releases the measuring div,
clears the session fields and detaches the textarea. A null textarea (only
possible after destroy) or a detached textarea makes the JavaScript throw:
modelled as none; a commit performed before the throw is still reported. -/
def Editor.stopEditing (e : Editor) (cancel : Bool) : Option Editor × List Commit :=
  match e.editingCell with
  | none => (some e, [])
  | some cell =>
    match e.textarea with
    | none =>
      (none, [])
    | some ta =>
      let cs := if !cancel && e.modified then
        [{ cell := cell, value := getCurrentValue ta, trigger := e.trigger }] else []
      if ta.attached then
        (some { e with textNode := false, textDiv := false,
                       editingCell := none, trigger := none, bounds := none,
                       textarea := some { ta with attached := false } }, cs)
      else (none, cs)

/-- mxCellEditor.prototype.resize: a no-op without the measuring div; when
the edited cell no longer has a render state, stops editing with cancel;
otherwise recomputes this.bounds (edge: absolute offset with zero size;
vertex: state geometry plus label-position offsets). A null this.bounds or a
null textarea in the active branch makes the JavaScript throw: none. -/
def Editor.resize (env : Env) (e : Editor) : Option Editor × List Commit :=
  if e.textDiv then
    match (e.editingCell.bind env.getState : Option CellState) with
    | none => e.stopEditing true
    | some state =>
      if mxIsEdge state.cell then
        match e.bounds with
        | none => (none, [])
        | some _ =>
          match e.textarea with
          | none => (none, [])
          | some _ =>
            (some { e with
              bounds := some ⟨state.absoluteOffset.x, state.absoluteOffset.y, 0, 0⟩ }, [])
      else
        match e.bounds with
        | none => (none, [])
        | some _ =>
          match e.textarea with
          | none => (none, [])
          | some _ =>
            let b : Rect := ⟨state.x, state.y, state.width, state.height⟩
            let horizontal := getValue state.style.labelPosition "center"
            let b :=
              if horizontal = "left" then { b with x := b.x - state.width }
              else if horizontal = "right" then { b with x := b.x + state.width }
              else b
            let vertical := getValue state.style.verticalLabelPosition "middle"
            let b :=
              if vertical = "top" then { b with y := b.y - state.height }
              else if vertical = "bottom" then { b with y := b.y + state.height }
              else b
            (some { e with bounds := some b }, [])
  else (some e, [])

/-- mxCellEditor.prototype.startEditing: lazily initializes, always stops any
current session with cancel true, then starts a session for the cell if the
view has a render state for it: hides the label when a text shape exists,
sets the overlay textAlign from the style (default left), computes bounds,
seeds the value (placeholder and clearOnChange when the label is empty),
attaches the textarea and, when autoSize is set, creates the measuring div
and runs resize. -/
def Editor.startEditing (env : Env) (e : Editor) (cell : Cell) (trigger : Option Nat) :
    Option Editor × List Commit :=
  let e0 := if e.textarea.isNone then e.init else e
  match e0.stopEditing true with
  | (none, cs1) => (none, cs1)
  | (some e1, cs1) =>
    match env.getState cell with
    | none => (some e1, cs1)
    | some state =>
      match e1.textarea with
      | none => (none, cs1)
      | some ta =>
        let e2 := { e1 with editingCell := some cell, trigger := trigger,
                            textNode := state.text.isSome && e1.isHideLabel state }
        let align := getValue state.style.align "left"
        let ta := { ta with textAlign := align }
        let bounds := getEditorBounds env.scale ta.textAlign state
        let value0 := env.getEditingValue cell trigger
        let useEmpty := value0.length = 0
        let e3 := { e2 with
          bounds := some bounds,
          clearOnChange := useEmpty,
          modified := false,
          textarea := some { ta with
            value := if useEmpty then e2.emptyLabelText else value0,
            attached := true } }
        if e3.autoSize then
          match ({ e3 with textDiv := true } : Editor).resize env with
          | (oe, cs2) => (oe, cs1 ++ cs2)
        else (some e3, cs1)

/-- Body of the changeHandler registered in init, run on a model CHANGE
notification while the listener is registered: cancels the session when the
edited cell no longer resolves to a render state. -/
def Editor.onModelChange (env : Env) (e : Editor) : Option Editor × List Commit :=
  if e.changeHandler then
    if e.editingCell.isSome && (e.editingCell.bind env.getState).isNone then
      e.stopEditing true
    else (some e, [])
  else (some e, [])

/-- mxCellEditor.prototype.destroy: when the textarea exists, releases it
(detaching it from any parent) and removes the model change listener;
otherwise nothing happens. -/
def Editor.destroy (e : Editor) : Editor :=
  match e.textarea with
  | none => e
  | some _ => { e with textarea := none, changeHandler := false }

/-- Events that can be delivered to the editor during a session without
terminating it: a modifying keystroke (the keydown listener's final branch),
the textarea change event, and the deferred resize. -/
inductive SEvent where
  | keystroke
  | changeEvt
  | doResize
deriving DecidableEq, Repr

/-- One event step. The modifying-keystroke branch of the keydown listener
clears the placeholder on the first keystroke (clearOnChange true: reset the
flag and empty the textarea value) and sets modified; the change listener
sets modified; doResize runs resize. -/
def stepEvent (env : Env) (e : Editor) : SEvent → Option Editor × List Commit
  | SEvent.keystroke =>
    match e.textarea with
    | none => (none, [])
    | some ta =>
      if e.clearOnChange then
        (some { e with clearOnChange := false, modified := true,
                       textarea := some { ta with value := "" } }, [])
      else
        (some { e with modified := true }, [])
  | SEvent.changeEvt => (some { e with modified := true }, [])
  | SEvent.doResize => e.resize env

/-- Delivering a list of events in order; a throw aborts the rest. -/
def processEvents (env : Env) (e : Editor) : List SEvent → Option Editor × List Commit
  | [] => (some e, [])
  | ev :: rest =>
    match stepEvent env e ev with
    | (none, cs) => (none, cs)
    | (some e1, cs) =>
      match processEvents env e1 rest with
      | (oe, cs2) => (oe, cs ++ cs2)

/-! ## Concrete fixtures used by witnesses and counterexamples -/

/-- A vertex cell. -/
def cellV1 : Cell := ⟨1, CellKind.vertex⟩

/-- A second vertex cell. -/
def cellV2 : Cell := ⟨2, CellKind.vertex⟩

/-- The 100 by 40 vertex state at (10, 20) with default style and no text
shape, from the spec's editor-bounds example. -/
def stC5 : CellState :=
  { cell := cellV1, x := 10, y := 20, width := 100, height := 40,
    absoluteOffset := ⟨0, 0⟩, style := {}, text := none }

/-- A second vertex state, 50 by 30 at the origin. -/
def stV2 : CellState :=
  { cell := cellV2, x := 0, y := 0, width := 50, height := 30,
    absoluteOffset := ⟨0, 0⟩, style := {}, text := none }

/-- An environment where both vertices are rendered; cellV1 has label
"hello" and cellV2 has an empty label; scale one. -/
def envA : Env :=
  { getState := fun c =>
      if c = cellV1 then some stC5 else if c = cellV2 then some stV2 else none,
    getEditingValue := fun c _ => if c = cellV1 then "hello" else "",
    scale := 1 }

/-- An environment whose view resolves no cell at all. -/
def envGone : Env :=
  { getState := fun _ => none, getEditingValue := fun _ _ => "", scale := 1 }

/-- An editor with an active, modified session on cellV1. -/
def eActive : Editor :=
  { freshEditor with
    textarea := some ⟨"edited", true, "left"⟩, editingCell := some cellV1,
    trigger := some 7, modified := true, textNode := true,
    bounds := some ⟨12, 22, 96, 120⟩, textDiv := true, changeHandler := true }

/-- The textarea of eActive. -/
def taActive : Textarea := ⟨"edited", true, "left"⟩

/-- eActive with the empty-label placeholder still uncleared. -/
def eCoC : Editor := { eActive with clearOnChange := true }

/-- A never-used editor configured with a visible empty-label placeholder. -/
def ePlaceholder : Editor := { freshEditor with emptyLabelText := "Type here" }

/-- An initialized editor with no session. -/
def eInited : Editor := Editor.init freshEditor

/-! ## Helper lemmas -/

theorem take_set_of_le {α : Type} (a : α) {n m : Nat} (l : List α) (h : m ≤ n) :
    (l.set n a).take m = l.take m := by
  induction l generalizing n m with
  | nil => simp
  | cons hd tl ih =>
    cases n with
    | zero =>
      have hm : m = 0 := Nat.le_zero.mp h
      subst hm; simp
    | succ k =>
      cases m with
      | zero => simp
      | succ j =>
        simp only [List.set, List.take_succ_cons]
        rw [ih (Nat.le_of_succ_le_succ h)]

theorem filterInPlaceGo_spec {α : Type} (cond : α → Bool) :
    ∀ (n : Nat) (l : List α) (i removed : Nat), l.length - i ≤ n →
      removed ≤ i → i ≤ l.length →
      (filterInPlaceGo cond l i removed).1.take
        ((filterInPlaceGo cond l i removed).1.length - (filterInPlaceGo cond l i removed).2)
      = l.take (i - removed) ++ (l.drop i).filter cond := by
  intro n
  induction n with
  | zero =>
    intro l i removed hn hri hil
    have hi : i = l.length := Nat.le_antisymm hil (by omega)
    rw [filterInPlaceGo, dif_neg (by omega)]
    subst hi
    simp
  | succ n ih =>
    intro l i removed hn hri hil
    by_cases hi : i < l.length
    · rw [filterInPlaceGo, dif_pos hi]
      have hdrop : l.drop i = l[i] :: l.drop (i + 1) := List.drop_eq_getElem_cons hi
      by_cases hcond : cond l[i]
      · simp only [hcond, Bool.not_true, Bool.false_eq_true, if_false]
        by_cases hrem : removed > 0
        · simp only [hrem, if_true]
          have hlen : (l.set (i - removed) l[i]).length = l.length := List.length_set l _ _
          have ihr := ih (l.set (i - removed) l[i]) (i + 1) removed
            (by omega) (by omega) (by omega)
          rw [ihr]
          have hd : (l.set (i - removed) l[i]).drop (i + 1) = l.drop (i + 1) :=
            List.drop_set_of_lt _ _ (by omega)
          have hsum : i + 1 - removed = (i - removed) + 1 := by omega
          have hidx : i - removed < l.length := by omega
          have htk : (l.set (i - removed) l[i]).take ((i - removed) + 1)
              = l.take (i - removed) ++ [l[i]] := by
            rw [List.take_succ, take_set_of_le _ _ (Nat.le_refl _)]
            have : (l.set (i - removed) l[i])[i - removed]? = some l[i] := by
              rw [List.getElem?_eq_getElem (by omega)]
              simp
            rw [this]
            rfl
          rw [hd, hsum, htk, hdrop, List.filter_cons]
          simp only [hcond, if_true]
          rw [List.append_assoc, List.singleton_append]
        · simp only [hrem, if_false]
          have hr0 : removed = 0 := by omega
          subst hr0
          have ihr := ih l (i + 1) 0 (by omega) (by omega) (by omega)
          rw [ihr]
          have htk : l.take (i + 1) = l.take i ++ [l[i]] := by
            rw [List.take_succ, List.getElem?_eq_getElem hi]
            rfl
          rw [Nat.sub_zero, Nat.sub_zero, htk, hdrop, List.filter_cons]
          simp only [hcond, if_true]
          rw [List.append_assoc, List.singleton_append]
      · simp only [hcond, Bool.not_false, if_true]
        have ihr := ih l (i + 1) (removed + 1) (by omega) (by omega) (by omega)
        rw [ihr]
        have hsub : i + 1 - (removed + 1) = i - removed := by omega
        have hcf : cond l[i] = false := by
          simpa using hcond
        rw [hsub, hdrop, List.filter_cons]
        simp only [hcf, Bool.false_eq_true, if_false]
    · rw [filterInPlaceGo, dif_neg hi]
      have hieq : i = l.length := by omega
      subst hieq
      simp

/-! ## Claim theorems -/

/-- C9: for every array a and predicate cond, a.filterInPlace(cond) leaves a
holding exactly the elements of the original array satisfying cond, in their
original order; it is extensionally equal to the non-mutating a.filter(cond). -/
theorem claim_C9 {α : Type} (cond : α → Bool) (l : List α) :
    filterInPlace cond l = l.filter cond := by
  have h := filterInPlaceGo_spec cond l.length l 0 0 (by omega) (Nat.le_refl 0)
    (Nat.zero_le _)
  simpa [filterInPlace] using h

/-- C10: each animation tick maps the per-ball step over every moving ball,
and the per-ball step preserves the absolute values of vx and vy (only the
signs may flip, at wall contact) and advances the position by exactly the
post-bounce velocities, leaving the size unchanged. -/
theorem claim_C10 :
    (∀ b : Ball,
      |(stepBall b).vx| = |b.vx| ∧ |(stepBall b).vy| = |b.vy| ∧
      (stepBall b).geom.x = b.geom.x + (stepBall b).vx ∧
      (stepBall b).geom.y = b.geom.y + (stepBall b).vy ∧
      (stepBall b).geom.width = b.geom.width ∧
      (stepBall b).geom.height = b.geom.height) ∧
    (∀ balls : List Ball, tickBalls balls = balls.map stepBall) := by
  constructor
  · intro b
    unfold stepBall
    split_ifs <;>
      simp [abs_abs, abs_neg]
  · intro balls
    rfl

/-- C2: for an active session (edited cell present, textarea present and
attached), stopEditing(cancel) commits exactly when cancel is false and the
session is modified, and then commits exactly one labelChanged call carrying
the edited cell, the CR-stripped overlay text and the original trigger;
stopEditing(true) never commits; no committed text contains a carriage
return, and the raw value "a\r\nb" commits as "a\nb". -/
theorem claim_C2 (e : Editor) (c : Cell) (ta : Textarea) (cancel : Bool)
    (hc : e.editingCell = some c) (ht : e.textarea = some ta)
    (ha : ta.attached = true) :
    ((e.stopEditing cancel).2 =
      if !cancel && e.modified then
        [{ cell := c, value := getCurrentValue ta, trigger := e.trigger }]
      else []) ∧
    (cancel = true → (e.stopEditing cancel).2 = []) ∧
    (∀ m ∈ (e.stopEditing cancel).2, '\r' ∉ m.value.toList) ∧
    getCurrentValue ⟨"a\r\nb", true, "left"⟩ = "a\nb" := by
  have hmain : (e.stopEditing cancel).2 =
      if !cancel && e.modified then
        [{ cell := c, value := getCurrentValue ta, trigger := e.trigger }]
      else [] := by
    simp only [Editor.stopEditing, hc, ht, ha, if_true]
  refine ⟨hmain, ?_, ?_, by decide⟩
  · intro hcan
    rw [hmain, hcan]
    simp
  · intro m hm
    rw [hmain] at hm
    by_cases hif : (!cancel && e.modified) = true
    · rw [if_pos hif] at hm
      have hm1 : m = { cell := c, value := getCurrentValue ta, trigger := e.trigger } := by
        simpa using hm
      subst hm1
      intro hr
      have := List.mem_filter.mp hr
      simp at this
    · rw [if_neg hif] at hm
      simp at hm

/-- C2 witness: stopping the concrete modified session on cellV1 without
cancel commits exactly one labelChanged call with the CR-free text. -/
theorem claim_C2_witness :
    (eActive.stopEditing false).2 =
      [{ cell := cellV1, value := getCurrentValue taActive, trigger := some 7 }] := by
  have h := claim_C2 eActive cellV1 taActive false rfl rfl rfl
  simpa [eActive, freshEditor] using h.1

/-- C7: with no active session, stopEditing with any cancel value and
resize() both return unchanged state, perform no commit and do not throw. -/
theorem claim_C7 (env : Env) (e : Editor) (cancel : Bool)
    (h : e.editingCell = none) :
    e.stopEditing cancel = (some e, []) ∧ e.resize env = (some e, []) := by
  constructor
  · simp [Editor.stopEditing, h]
  · cases htd : e.textDiv <;>
      simp [Editor.resize, htd, h, Editor.stopEditing]

/-- C7 witness: the fresh editor is inert under stopEditing and resize. -/
theorem claim_C7_witness :
    freshEditor.stopEditing true = (some freshEditor, []) ∧
    freshEditor.resize envA = (some freshEditor, []) :=
  claim_C7 envA freshEditor true rfl

/-- C4 counterexample: for a state whose text point size is 5 at scale 1 the
code computes width 5 * 1 + 20 = 25, not max(30, 25) = 30 as the claim
states, so the claimed width formula fails. -/
theorem claim_C4_counterexample :
    (getMinimumSize 1 "left" { stC5 with text := some { size := 5 } }).width = 25 ∧
    ¬ (getMinimumSize 1 "left" { stC5 with text := some { size := 5 } }).width
        = max 30 (5 * 1 + 20) := by
  have h1 : (getMinimumSize 1 "left" { stC5 with text := some { size := 5 } }).width = 25 := by
    simp only [getMinimumSize]
    norm_num
  refine ⟨h1, ?_⟩
  rw [h1, max_eq_left (by norm_num)]
  norm_num

/-- C4 amended: getMinimumSize returns width textSize * scale + 20 when text
metrics are known (with no floor at 30; the claimed max(30, .) form is only
correct when textSize * scale is at least 10) and width 30 otherwise, and
height 120 when the overlay textAlign is left and 40 otherwise. -/
theorem claim_C4_amended (scale : ℚ) (ta : String) (state : CellState) :
    ((getMinimumSize scale ta state).width =
      match state.text with
      | none => (30 : ℚ)
      | some t => t.size * scale + 20) ∧
    ((getMinimumSize scale ta state).height =
      if ta = "left" then (120 : ℚ) else 40) ∧
    (∀ t : TextInfo, state.text = some t → (10 : ℚ) ≤ t.size * scale →
      (getMinimumSize scale ta state).width = max 30 (t.size * scale + 20)) := by
  refine ⟨rfl, rfl, ?_⟩
  intro t htx hts
  simp only [getMinimumSize, htx]
  rw [max_eq_right (by linarith)]

/-- C4 witness: at point size 12 and scale 1 the width agrees with the
original max form, via the amended theorem. -/
theorem claim_C4_witness :
    (getMinimumSize 1 "left" { stC5 with text := some { size := 12 } }).width
      = max 30 (12 * 1 + 20) := by
  have h := (claim_C4_amended 1 "left" { stC5 with text := some { size := 12 } }).2.2
    { size := 12 } rfl (by norm_num)
  simpa using h

theorem getEditorBounds_x_vertex_nobb (scale : ℚ) (ta : String) (st : CellState)
    (hk : st.cell.kind = CellKind.vertex)
    (hbb : (match st.text with
            | none => (none : Option Rect)
            | some t => t.boundingBox) = none) :
    (getEditorBounds scale ta st).x =
      (let x0 := st.x + ((getValue st.style.spacingLeft 0) * scale +
        (getValue st.style.spacing 2) * scale)
       if getValue st.style.labelPosition "center" = "left" then x0 - st.width
       else if getValue st.style.labelPosition "center" = "right" then x0 + st.width
       else x0) := by
  have hE : mxIsEdge st.cell = false := by
    simp [mxIsEdge, hk]
  have hV : mxIsVertex st.cell = true := by
    simp [mxIsVertex, hk]
  cases htx : st.text with
  | none =>
    simp only [getEditorBounds, hE, hV, htx, Bool.false_eq_true, if_false, if_true]
    split_ifs <;> rfl
  | some t =>
    have hbn : t.boundingBox = none := by
      rw [htx] at hbb
      exact hbb
    simp only [getEditorBounds, hE, hV, htx, hbn, Bool.false_eq_true, if_false, if_true]
    split_ifs <;> rfl

theorem getEditorBounds_y_vertex_nobb (scale : ℚ) (ta : String) (st : CellState)
    (hk : st.cell.kind = CellKind.vertex)
    (hbb : (match st.text with
            | none => (none : Option Rect)
            | some t => t.boundingBox) = none) :
    (getEditorBounds scale ta st).y =
      (let y0 := st.y + ((getValue st.style.spacingTop 0) * scale +
        (getValue st.style.spacing 2) * scale)
       if getValue st.style.verticalLabelPosition "middle" = "top" then y0 - st.height
       else if getValue st.style.verticalLabelPosition "middle" = "bottom" then
         y0 + st.height
       else y0) := by
  have hE : mxIsEdge st.cell = false := by
    simp [mxIsEdge, hk]
  have hV : mxIsVertex st.cell = true := by
    simp [mxIsVertex, hk]
  cases htx : st.text with
  | none =>
    simp only [getEditorBounds, hE, hV, htx, Bool.false_eq_true, if_false, if_true]
    split_ifs <;> rfl
  | some t =>
    have hbn : t.boundingBox = none := by
      rw [htx] at hbb
      exact hbb
    simp only [getEditorBounds, hE, hV, htx, hbn, Bool.false_eq_true, if_false, if_true]
    split_ifs <;> rfl

/-- C5: for a vertex state with no text bounding box, default spacing and
scale 1, the editor-bounds x for label-position right is exactly the
element width more than for center, and for left exactly the width less;
on the concrete 100 by 40 element at (10, 20) the center computation gives
x = 12, y = 22, right gives x = 112 and left gives x = -88. -/
theorem claim_C5 (st : CellState) (ta : String)
    (hk : st.cell.kind = CellKind.vertex)
    (hbb : (match st.text with
            | none => (none : Option Rect)
            | some t => t.boundingBox) = none)
    (hsp : st.style.spacing = none) (hsl : st.style.spacingLeft = none) :
    ((getEditorBounds 1 ta
        { st with style := { st.style with labelPosition := some "right" } }).x =
      (getEditorBounds 1 ta
        { st with style := { st.style with labelPosition := some "center" } }).x
        + st.width) ∧
    ((getEditorBounds 1 ta
        { st with style := { st.style with labelPosition := some "left" } }).x =
      (getEditorBounds 1 ta
        { st with style := { st.style with labelPosition := some "center" } }).x
        - st.width) ∧
    (getEditorBounds 1 "left"
        { stC5 with style := { stC5.style with labelPosition := some "center" } }).x = 12 ∧
    (getEditorBounds 1 "left"
        { stC5 with style := { stC5.style with labelPosition := some "center" } }).y = 22 ∧
    (getEditorBounds 1 "left"
        { stC5 with style := { stC5.style with labelPosition := some "right" } }).x = 112 ∧
    (getEditorBounds 1 "left"
        { stC5 with style := { stC5.style with labelPosition := some "left" } }).x = -88 := by
  have hr := getEditorBounds_x_vertex_nobb 1 ta
    { st with style := { st.style with labelPosition := some "right" } } hk hbb
  have hc := getEditorBounds_x_vertex_nobb 1 ta
    { st with style := { st.style with labelPosition := some "center" } } hk hbb
  have hl := getEditorBounds_x_vertex_nobb 1 ta
    { st with style := { st.style with labelPosition := some "left" } } hk hbb
  simp only [getValue] at hr hc hl
  refine ⟨?_, ?_, ?_, ?_, ?_, ?_⟩
  · rw [hr, hc]
    simp
  · rw [hl, hc]
    simp
  · rw [getEditorBounds_x_vertex_nobb 1 "left" _ rfl rfl]
    simp [stC5, getValue]
    norm_num
  · rw [getEditorBounds_y_vertex_nobb 1 "left" _ rfl rfl]
    simp [stC5, getValue]
    norm_num
  · rw [getEditorBounds_x_vertex_nobb 1 "left" _ rfl rfl]
    simp [stC5, getValue]
    norm_num
  · rw [getEditorBounds_x_vertex_nobb 1 "left" _ rfl rfl]
    simp [stC5, getValue]
    norm_num

/-- C5 witness: the general shift law instantiated at the concrete
100 by 40 state. -/
theorem claim_C5_witness :
    (getEditorBounds 1 "left"
        { stC5 with style := { stC5.style with labelPosition := some "right" } }).x =
      (getEditorBounds 1 "left"
        { stC5 with style := { stC5.style with labelPosition := some "center" } }).x
        + stC5.width :=
  (claim_C5 stC5 "left" rfl rfl rfl rfl).1

/-- C1 counterexample: with an active modified session on cellV1, calling
startEditing for cellV2 performs no labelChanged commit at all — the old
session's pending edit is discarded, not committed — while the new session
on cellV2 does begin. -/
theorem claim_C1_counterexample :
    eActive.editingCell = some cellV1 ∧ eActive.modified = true ∧
    (eActive.startEditing envA cellV2 none).2 = [] ∧
    (eActive.startEditing envA cellV2 none).1.map Editor.editingCell
      = some (some cellV2) :=
  ⟨rfl, rfl, rfl, rfl⟩

/-- C1 amended: startEditing terminates any active session through
stopEditing with cancel true, so the old session's pending edit is
discarded and labelChanged is never invoked for the old element; the new
session then begins (the result edits the new cell) with no commit having
been performed. -/
theorem claim_C1_amended (env : Env) (e : Editor) (c1 c2 : Cell) (t : Option Nat)
    (ta : Textarea) (st2 : CellState)
    (hc : e.editingCell = some c1) (ht : e.textarea = some ta)
    (ha : ta.attached = true) (hs : env.getState c2 = some st2) :
    (e.startEditing env c2 t).2 = [] ∧
    (e.startEditing env c2 t).1.map Editor.editingCell = some (some c2) := by
  have hstop : e.stopEditing true =
      (some { e with textNode := false, textDiv := false, editingCell := none,
                     trigger := none, bounds := none,
                     textarea := some { ta with attached := false } }, []) := by
    simp [Editor.stopEditing, hc, ht, ha]
  cases hau : e.autoSize <;> cases hkind : st2.cell.kind <;>
    simp [Editor.startEditing, ht, hstop, hs, Editor.resize, hau,
      Editor.isHideLabel, mxIsEdge, hkind]

/-- C1 witness: the amended behavior on the concrete modified session. -/
theorem claim_C1_witness :
    (eActive.startEditing envA cellV2 none).2 = [] ∧
    (eActive.startEditing envA cellV2 none).1.map Editor.editingCell
      = some (some cellV2) :=
  claim_C1_amended envA eActive cellV1 cellV2 none taActive stV2 rfl rfl rfl rfl

/-- C3: when the view no longer resolves the edited cell, both the model
change notification and resize() run stopEditing(true): the session ends
with no labelChanged commit, the hidden label rendering is restored
(textNode cleared) and all session fields are released. -/
theorem claim_C3 (env : Env) (e : Editor) (c : Cell) (ta : Textarea)
    (hc : e.editingCell = some c) (hs : env.getState c = none)
    (ht : e.textarea = some ta) (ha : ta.attached = true)
    (hch : e.changeHandler = true) (htd : e.textDiv = true) :
    e.onModelChange env =
      (some { e with textNode := false, textDiv := false, editingCell := none,
                     trigger := none, bounds := none,
                     textarea := some { ta with attached := false } }, []) ∧
    e.resize env =
      (some { e with textNode := false, textDiv := false, editingCell := none,
                     trigger := none, bounds := none,
                     textarea := some { ta with attached := false } }, []) := by
  have hstop : e.stopEditing true =
      (some { e with textNode := false, textDiv := false, editingCell := none,
                     trigger := none, bounds := none,
                     textarea := some { ta with attached := false } }, []) := by
    simp [Editor.stopEditing, hc, ht, ha]
  constructor
  · simp [Editor.onModelChange, hch, hc, hs, hstop]
  · simp [Editor.resize, htd, hc, hs, hstop]

/-- C3 witness: the concrete active session canceled when the view resolves
nothing: no commit, the session ends, the label is unhidden. -/
theorem claim_C3_witness :
    (eActive.onModelChange envGone).2 = [] ∧
    (eActive.onModelChange envGone).1.map Editor.editingCell = some none ∧
    (eActive.resize envGone).1.map Editor.textNode = some false := by
  have h := claim_C3 envGone eActive cellV1 taActive rfl rfl rfl rfl rfl rfl
  refine ⟨?_, ?_, ?_⟩
  · rw [h.1]
  · rw [h.1]
    rfl
  · rw [h.2]
    rfl

/-- C8 counterexample: after destroy() the editor is not inert — a
startEditing call lazily re-initializes it and starts a fresh session on
cellV1, an observable effect, refuting the claim that every operation after
destroy() has no observable effect. -/
theorem claim_C8_counterexample :
    (Editor.destroy (Editor.init freshEditor)).editingCell = none ∧
    ((Editor.destroy (Editor.init freshEditor)).startEditing envA cellV1 none).1.map
      Editor.editingCell = some (some cellV1) :=
  ⟨rfl, rfl⟩

/-- C8 amended: after destroy() is called with no active session, repeated
destroy(), stopEditing with any cancel value, and resize() never throw and
leave the editor unchanged with no commit; startEditing, by contrast,
re-initializes the editor and can start a new session. -/
theorem claim_C8_amended (env : Env) (e : Editor) (cancel : Bool)
    (hc : e.editingCell = none) (htd : e.textDiv = false) :
    (e.destroy).destroy = e.destroy ∧
    (e.destroy).stopEditing cancel = (some e.destroy, []) ∧
    (e.destroy).resize env = (some e.destroy, []) ∧
    (e.destroy).textarea = none := by
  cases hta : e.textarea <;>
    simp [Editor.destroy, Editor.stopEditing, Editor.resize, hta, hc, htd]

/-- C8 witness: the amended no-op behavior on a destroyed initialized
editor. -/
theorem claim_C8_witness :
    (eInited.destroy).destroy = eInited.destroy ∧
    (eInited.destroy).stopEditing true = (some eInited.destroy, []) ∧
    (eInited.destroy).resize envA = (some eInited.destroy, []) ∧
    (eInited.destroy).textarea = none :=
  claim_C8_amended envA eInited true rfl rfl

theorem stopEditing_clearOnChange (e : Editor) (cancel : Bool) (e1 : Editor)
    (cs : List Commit) (h : e.stopEditing cancel = (some e1, cs)) :
    e1.clearOnChange = e.clearOnChange := by
  rcases hec : e.editingCell with _ | c
  · simp only [Editor.stopEditing, hec] at h
    obtain ⟨h1, h2⟩ := Prod.mk.injEq .. ▸ h
    cases h1
    rfl
  · rcases hta : e.textarea with _ | ta
    · simp [Editor.stopEditing, hec, hta] at h
    · by_cases hat : ta.attached = true
      · simp only [Editor.stopEditing, hec, hta, hat, if_true] at h
        obtain ⟨h1, h2⟩ := Prod.mk.injEq .. ▸ h
        cases h1
        rfl
      · simp only [Editor.stopEditing, hec, hta] at h
        rw [if_neg hat] at h
        simp at h

theorem resize_clearOnChange (env : Env) (e : Editor) (e1 : Editor)
    (cs : List Commit) (h : e.resize env = (some e1, cs)) :
    e1.clearOnChange = e.clearOnChange := by
  by_cases htd : e.textDiv = true
  · rw [Editor.resize, if_pos htd] at h
    rcases hbs : (e.editingCell.bind env.getState : Option CellState) with _ | st
    · rw [hbs] at h
      exact stopEditing_clearOnChange e true e1 cs h
    · rw [hbs] at h
      rcases hbd : e.bounds with _ | b <;> rcases hta : e.textarea with _ | ta <;>
        by_cases hedge : mxIsEdge st.cell = true <;>
        simp only [hbd, hta, hedge, Bool.not_eq_true, if_true, if_false] at h <;>
        first
        | (obtain ⟨h1, h2⟩ := Prod.mk.injEq .. ▸ h
           cases h1
           rfl)
        | simp at h
  · rw [Editor.resize, if_neg htd] at h
    obtain ⟨h1, h2⟩ := Prod.mk.injEq .. ▸ h
    cases h1
    rfl

theorem stepEvent_clearOnChange (env : Env) (e : Editor) (ev : SEvent)
    (e1 : Editor) (cs : List Commit) (h : stepEvent env e ev = (some e1, cs)) :
    (e1.clearOnChange = true ↔
      (e.clearOnChange = true ∧ ev ≠ SEvent.keystroke)) := by
  cases ev with
  | keystroke =>
    rcases hta : e.textarea with _ | ta
    · simp [stepEvent, hta] at h
    · by_cases hcoc : e.clearOnChange = true
      · simp only [stepEvent, hta, hcoc, if_true] at h
        obtain ⟨h1, h2⟩ := Prod.mk.injEq .. ▸ h
        cases h1
        simp
      · simp only [stepEvent, hta] at h
        rw [if_neg hcoc] at h
        obtain ⟨h1, h2⟩ := Prod.mk.injEq .. ▸ h
        cases h1
        simp [hcoc]
  | changeEvt =>
    simp only [stepEvent] at h
    obtain ⟨h1, h2⟩ := Prod.mk.injEq .. ▸ h
    cases h1
    simp
  | doResize =>
    simp only [stepEvent] at h
    rw [resize_clearOnChange env e e1 cs h]
    simp

theorem processEvents_clearOnChange (env : Env) :
    ∀ (evts : List SEvent) (e e1 : Editor) (cs : List Commit),
      processEvents env e evts = (some e1, cs) →
      (e1.clearOnChange = true ↔
        (e.clearOnChange = true ∧ SEvent.keystroke ∉ evts)) := by
  intro evts
  induction evts with
  | nil =>
    intro e e1 cs h
    simp only [processEvents] at h
    obtain ⟨h1, h2⟩ := Prod.mk.injEq .. ▸ h
    cases h1
    simp
  | cons ev rest ih =>
    intro e e1 cs h
    simp only [processEvents] at h
    rcases hst : stepEvent env e ev with ⟨oe, cs1⟩
    rw [hst] at h
    cases oe with
    | none => simp at h
    | some e2 =>
      dsimp only at h
      rcases hpr : processEvents env e2 rest with ⟨oe2, cs2⟩
      rw [hpr] at h
      obtain ⟨h1, h2⟩ := Prod.mk.injEq .. ▸ h
      cases oe2 with
      | none => simp at h1
      | some e1x =>
        have he : e1x = e1 := by simpa using h1
        have hstep := stepEvent_clearOnChange env e ev e2 cs1 hst
        have htail := ih e2 e1x cs2 hpr
        rw [← he, htail, hstep]
        constructor
        · rintro ⟨⟨hcoc, hne⟩, hnm⟩
          exact ⟨hcoc, by simp [List.mem_cons, hne, hnm, Ne.symm]⟩
        · rintro ⟨hcoc, hnm⟩
          simp only [List.mem_cons, not_or] at hnm
          exact ⟨⟨hcoc, fun hk => hnm.1 hk.symm⟩, hnm.2⟩

theorem startEditing_empty_label_seeds (env : Env) (e : Editor) (cell : Cell)
    (t : Option Nat) (st : CellState)
    (hc : e.editingCell = none) (hta : e.textarea = none)
    (hs : env.getState cell = some st) (hv : env.getEditingValue cell t = "") :
    (e.startEditing env cell t).1.map Editor.clearOnChange = some true ∧
    (e.startEditing env cell t).1.map (fun ed => ed.textarea.map Textarea.value)
      = some (some e.emptyLabelText) := by
  cases hau : e.autoSize <;> cases hkind : st.cell.kind <;>
    simp [Editor.startEditing, Editor.init, Editor.stopEditing, Editor.resize,
      Editor.isHideLabel, mxIsEdge, hc, hta, hs, hv, hau, hkind]

/-- C6: starting to edit an element whose label is empty seeds the overlay
with the configured placeholder and sets clearOnChange; the first modifying
keystroke while clearOnChange holds clears the placeholder text, resets the
flag and marks the session modified; and over any delivered event sequence
clearOnChange stays set exactly until the first modifying keystroke (no
other event clears it, nothing re-sets it), so the true-to-false transition
happens exactly once, at the first modification. -/
theorem claim_C6 :
    (∀ (env : Env) (e : Editor) (cell : Cell) (t : Option Nat) (st : CellState),
      e.editingCell = none → e.textarea = none → env.getState cell = some st →
      env.getEditingValue cell t = "" →
      (e.startEditing env cell t).1.map Editor.clearOnChange = some true ∧
      (e.startEditing env cell t).1.map (fun ed => ed.textarea.map Textarea.value)
        = some (some e.emptyLabelText)) ∧
    (∀ (env : Env) (e : Editor) (ta : Textarea), e.textarea = some ta →
      e.clearOnChange = true →
      stepEvent env e SEvent.keystroke =
        (some { e with clearOnChange := false, modified := true,
                       textarea := some { ta with value := "" } }, [])) ∧
    (∀ (env : Env) (evts : List SEvent) (e e1 : Editor) (cs : List Commit),
      processEvents env e evts = (some e1, cs) →
      (e1.clearOnChange = true ↔
        (e.clearOnChange = true ∧ SEvent.keystroke ∉ evts))) := by
  refine ⟨?_, ?_, ?_⟩
  · intro env e cell t st hc hta hs hv
    exact startEditing_empty_label_seeds env e cell t st hc hta hs hv
  · intro env e ta hta hcoc
    simp [stepEvent, hta, hcoc]
  · intro env evts e e1 cs h
    exact processEvents_clearOnChange env evts e e1 cs h

/-- C6 witness: the concrete placeholder-seeded start on the empty-labelled
cellV2, the concrete first keystroke, and the concrete no-keystroke trace
that leaves clearOnChange set. -/
theorem claim_C6_witness :
    ((ePlaceholder.startEditing envA cellV2 none).1.map Editor.clearOnChange
      = some true) ∧
    ((ePlaceholder.startEditing envA cellV2 none).1.map
      (fun ed => ed.textarea.map Textarea.value) = some (some "Type here")) ∧
    (stepEvent envA eCoC SEvent.keystroke =
      (some { eCoC with clearOnChange := false, modified := true,
                        textarea := some { taActive with value := "" } }, [])) ∧
    (eCoC.clearOnChange = true ↔
      (eCoC.clearOnChange = true ∧
        SEvent.keystroke ∉ ([SEvent.changeEvt] : List SEvent))) := by
  have h := claim_C6
  refine ⟨(h.1 envA ePlaceholder cellV2 none stV2 rfl rfl rfl rfl).1, ?_, ?_, ?_⟩
  · have h2 := (h.1 envA ePlaceholder cellV2 none stV2 rfl rfl rfl rfl).2
    simpa [ePlaceholder, freshEditor] using h2
  · exact h.2.1 envA eCoC taActive rfl rfl
  · exact h.2.2 envA [SEvent.changeEvt] eCoC eCoC [] rfl

end MxSpec
